import Mathlib

/-
Verification of the diagram-generation engine and the permissive evaluation
context of sismic-viz (src/sismic_viz.py), as a shallow embedding in Lean.

The statechart model is the read-only accessor surface provided by the
external sismic library (states with kind, ordered children, initial child,
entry/exit action text; transitions with source/target/event/guard/action),
exactly as consumed by the renderer.  Strings that Python treats as falsy
when absent (event, guard, action, on_entry, on_exit) are modelled as the
empty string.
-/

namespace SismicViz

inductive StateKind where
  | leaf
  | compound
  | orthogonal
deriving DecidableEq, Repr

/-- A state as seen through the sismic accessor: `kind` distinguishes
`BasicState` (leaf), `CompoundState` and `OrthogonalState`; `children` is the
ordered list returned by `children_for`; `initial` is the designated initial
child of a compound state (empty when absent). -/
structure SCState where
  name : String
  kind : StateKind
  children : List String
  initial : String
  on_entry : String
  on_exit : String
deriving DecidableEq, Repr

/-- A transition as stored by the statechart: optional event/guard/action are
the empty string when absent (Python falsiness). -/
structure Transition where
  source : String
  target : String
  event : String
  guard : String
  action : String
deriving DecidableEq, Repr

/-- The statechart: `states` in the enumeration order of `sc.states`,
`transitions` in declaration order. -/
structure Statechart where
  name : String
  root : String
  states : List SCState
  transitions : List Transition
deriving DecidableEq, Repr

/-- Embedding of `sc.state_for(name)`: first state with that name, `none`
models the `StatechartError` sismic raises for an unknown name. -/
def state_for (sc : Statechart) (name : String) : Option SCState :=
  sc.states.find? (fun s => s.name == name)

/-- Embedding of `sc.children_for(name)`. -/
def children_for (sc : Statechart) (name : String) : List String :=
  ((state_for sc name).map SCState.children).getD []

/-- Embedding of `sc.transitions_from(name)`: transitions with this source,
in declaration order. -/
def transitions_from (sc : Statechart) (name : String) : List Transition :=
  sc.transitions.filter (fun t => t.source == name)

/-- Embedding of `sc.transitions_to(name)`. -/
def transitions_to (sc : Statechart) (name : String) : List Transition :=
  sc.transitions.filter (fun t => t.target == name)

/-- Recursive collection of all names reachable through `children_for`;
`fuel` bounds the recursion depth. -/
def descendants_aux (sc : Statechart) : Nat → String → List String
  | 0, _ => []
  | fuel+1, name => (children_for sc name).flatMap (fun c => c :: descendants_aux sc fuel c)

/-- Embedding of `sc.descendants_for(name)`: on a tree-shaped hierarchy a
chain of children is shorter than the number of states, so this fuel computes
the full descendant set. -/
def descendants_for (sc : Statechart) (name : String) : List String :=
  descendants_aux sc sc.states.length name

/-- Decimal digit characters, as produced by Python `str` on an int. -/
def digitChar : Nat → Char
  | 0 => '0'
  | 1 => '1'
  | 2 => '2'
  | 3 => '3'
  | 4 => '4'
  | 5 => '5'
  | 6 => '6'
  | 7 => '7'
  | 8 => '8'
  | 9 => '9'
  | _ => '?'

def natToStrAux : Nat → Nat → List Char → List Char
  | 0, _, acc => acc
  | fuel+1, n, acc =>
    if n < 10 then digitChar n :: acc
    else natToStrAux fuel (n / 10) (digitChar (n % 10) :: acc)

/-- Decimal rendering of a natural number, the embedding of Python `str(n)`
(and of `"{}".format(n)`) for the nonnegative ints used by the renderer. -/
def natToStr (n : Nat) : String :=
  String.mk (natToStrAux (n+1) n [])

/-- Embedding of Python `s.replace('"', '\\"')` on the character list. -/
def escapeChars : List Char → List Char
  | [] => []
  | c :: cs => if c = '"' then '\\' :: '"' :: escapeChars cs else c :: escapeChars cs

def escapeQuotes (s : String) : String :=
  String.mk (escapeChars s.data)

/-- Embedding of Python `str.splitlines` for strings whose only line
separator is the newline character. -/
def pySplitlines (s : String) : List String :=
  if s = "" then []
  else
    let parts := s.splitOn "\n"
    if s.endsWith "\n" then parts.dropLast else parts

/-- Embedding of `indent` (src/sismic_viz.py line 29). -/
def indent (s : String) : String :=
  String.intercalate "\n" ((pySplitlines s).map (fun line => "  " ++ line))

/-- Embedding of `template_graph_doc` applied by `str.format`. -/
def template_graph_doc (fontsize : Nat) (name nodes edges : String) : String :=
  "digraph \x7b\n  compound=true;\n  edge [ fontsize=" ++ natToStr fontsize ++
    " ];\n  label = <<b>" ++ name ++ "</b>>" ++ nodes ++ edges ++ "\n\x7d"

/-- Embedding of `template_cluster` applied by `str.format`. -/
def template_cluster (state_name color style inner_nodes initialStr additional_points : String) :
    String :=
  "\nsubgraph cluster_" ++ state_name ++ " \x7b\n  label = \"" ++ state_name ++
    "\"\n  color = " ++ color ++ "\n " ++ style ++
    "\n  node [shape=Mrecord width=.4 height=.4];" ++ inner_nodes ++ initialStr ++
    additional_points ++ "\n\x7d"

/-- Embedding of `template_initial` applied by `str.format`. -/
def template_initial (state_name initial_state : String) : String :=
  "\n  node [shape=point width=.25 height=.25];\n  initial_" ++ state_name ++
    " -> " ++ initial_state

/-- Embedding of `template_invisible` applied by `str.format`. -/
def template_invisible (state_name : String) : String :=
  "\n  node [shape=point style=invisible width=0 height=0];\n  invisible_" ++ state_name

/-- Embedding of `template_leaf` applied by `str.format`. -/
def template_leaf (state_name label style color : String) : String :=
  "\n" ++ state_name ++ " [label=" ++ label ++ " shape=Mrecord" ++ style ++
    " color=" ++ color ++ "]"

/-- Embedding of `template_leaf_table_label` applied by `str.format`. -/
def template_leaf_table_label (state_name bgcolor on_entryStr on_exitStr : String) : String :=
  "\n" ++ state_name ++ " [label=<\n  <table cellborder=\"0\" style=\"rounded\"" ++ bgcolor ++
    ">\n    <tr><td>" ++ state_name ++ "</td></tr>\n    <hr/>" ++ on_entryStr ++ on_exitStr ++
    "\n  </table>\n> shape=none margin=0]"

/-- Embedding of `template_transition` applied by `str.format`. -/
def template_transition (source target label ltail lhead dir_ color : String) : String :=
  "\n" ++ source ++ " -> " ++ target ++ " [label=\"" ++ label ++ "\"" ++ ltail ++ lhead ++
    dir_ ++ color ++ "]"

/-- The name of the invisible waypoint `point_{child}_{ind}` introduced for a
transition from `child` (at ordinal `ind` among the transitions leaving
`child`) to a strict descendant of `child`. -/
def pointName (child : String) (ind : Nat) : String :=
  "point_" ++ child ++ "_" ++ natToStr ind

/-- Errors of the embedded renderer: `unknownState` models the
`StatechartError` sismic raises when a name is looked up that does not exist;
`outOfFuel` models exceeding the recursion bound. -/
inductive VizError where
  | unknownState (name : String)
  | outOfFuel
deriving DecidableEq, Repr

/-- List traversal in an `Except`, the embedding of a Python `for` loop that
stops at the first raised exception. -/
def mapME (f : α → Except ε β) : List α → Except ε (List β)
  | [] => .ok []
  | x :: xs => do
    let y ← f x
    let ys ← mapME f xs
    .ok (y :: ys)

/-- Embedding of `get_valid_nodes` (src/sismic_viz.py line 120): for a
composite state the pair (anchor node, boundary reference) is
`(invisible_name, cluster_name)`; for a leaf both are the state name.  The
lookup failure models the `StatechartError` raised by `sc.state_for`. -/
def get_valid_nodes (sc : Statechart) (state_name : String) :
    Except VizError (String × String) :=
  match state_for sc state_name with
  | none => .error (.unknownState state_name)
  | some state =>
    if state.kind = .leaf then .ok (state_name, state_name)
    else .ok ("invisible_" ++ state_name, "cluster_" ++ state_name)

/-- Embedding of the `label_parts` computation of `get_edges`
(src/sismic_viz.py lines 154-165). -/
def transition_label (include_guards include_actions : Bool) (t : Transition) : String :=
  let label_parts : List String := []
  let label_parts := if t.event ≠ "" then label_parts ++ [t.event] else label_parts
  let label_parts :=
    if include_guards = true ∧ t.guard ≠ "" then
      label_parts ++ ["[" ++ escapeQuotes t.guard ++ "]"] else label_parts
  let label_parts :=
    if include_actions = true ∧ t.action ≠ "" then
      label_parts ++ ["/ " ++ escapeQuotes t.action] else label_parts
  String.intercalate " " label_parts

/-- The argument tuple of one `get_edge_text` call in `get_edges`: one edge
segment before serialization. -/
structure EdgeArgs where
  source : String
  target : String
  ltail : String
  lhead : String
  label : String
  dir_ : String
  color : String
deriving DecidableEq, Repr

/-- Embedding of `get_edge_text` (src/sismic_viz.py line 131): the boundary
references are dropped when they coincide with the endpoint node. -/
def get_edge_text (source target ltail lhead label dir_ color : String) : String :=
  let ltail2 := if ltail = source then "" else " ltail=" ++ ltail
  let lhead2 := if lhead = target then "" else " lhead=" ++ lhead
  template_transition source target label ltail2 lhead2 dir_ color

def edge_text (e : EdgeArgs) : String :=
  get_edge_text e.source e.target e.ltail e.lhead e.label e.dir_ e.color

/-- Embedding of one iteration of the transition loop in `get_edges`
(src/sismic_viz.py lines 149-175): the edge segment(s) emitted for the
transition `t` at ordinal `ind` among the transitions leaving `state_name`. -/
def edges_for_transition (sc : Statechart) (include_guards include_actions : Bool)
    (configuration : List String) (state_name : String) (ind : Nat) (t : Transition) :
    Except VizError (List EdgeArgs) := do
  let (valid_source, source) ← get_valid_nodes sc t.source
  let (valid_target, target) ← get_valid_nodes sc t.target
  let color :=
    if t.event ≠ "" ∧ configuration.contains state_name then " color=\"#3399ff\"" else ""
  let label := transition_label include_guards include_actions t
  if (descendants_for sc state_name).contains t.target then
    let out_point := pointName state_name ind
    .ok [⟨valid_source, out_point, source, out_point, "", " dir=none", color⟩,
         ⟨out_point, valid_target, out_point, target, label, "", color⟩]
  else
    .ok [⟨valid_source, valid_target, source, target, label, "", color⟩]

/-- Embedding of the full loop of `get_edges` as the list of emitted edge
segments, states in enumeration order, transitions per state in declaration
order. -/
def get_edges_list (sc : Statechart) (include_guards include_actions : Bool)
    (configuration : List String) : Except VizError (List EdgeArgs) := do
  let perState ← mapME (fun (s : SCState) => do
      let perTransition ← mapME
        (fun (p : Nat × Transition) =>
          edges_for_transition sc include_guards include_actions configuration s.name p.1 p.2)
        (transitions_from sc s.name).enum
      pure perTransition.flatten)
    sc.states
  pure perState.flatten

/-- Embedding of `get_edges` (src/sismic_viz.py line 146): the concatenation
of the serialized edge segments. -/
def get_edges (sc : Statechart) (include_guards include_actions : Bool)
    (configuration : List String) : Except VizError String :=
  (get_edges_list sc include_guards include_actions configuration).map
    (fun es => String.join (es.map edge_text))

/-- Structured form of the node tree produced by `visit_state`: each
constructor records exactly the data `visit_state` feeds into the
corresponding template (`renderNode` below performs that final formatting).
`compound` is the `isinstance(state, CompoundState)` test, `hasAnchor` the
`transitions_to or transitions_from` test, `points` the names listed in
`additional_points`. -/
inductive Node where
  | cluster (state_name : String) (active : Bool) (compound : Bool) (initial_state : String)
      (hasAnchor : Bool) (inner : List Node) (points : List String)
  | leafTable (state_name : String) (active : Bool) (on_entry : String) (on_exit : String)
  | leafSimple (state_name : String) (active : Bool)

/-- Embedding of the traversal of `visit_state` (src/sismic_viz.py line 67),
producing the structured node tree; `fuel` bounds the recursion depth, which
on a tree-shaped hierarchy never exceeds the number of states. -/
def build_node (sc : Statechart) (configuration : List String) :
    Nat → String → Except VizError Node
  | 0, _ => .error .outOfFuel
  | fuel+1, state_name =>
    match state_for sc state_name with
    | none => .error (.unknownState state_name)
    | some state =>
      let active := configuration.contains state_name
      if state.kind = .leaf then
        if state.on_entry ≠ "" ∨ state.on_exit ≠ "" then
          .ok (.leafTable state_name active state.on_entry state.on_exit)
        else
          .ok (.leafSimple state_name active)
      else
        match mapME (build_node sc configuration fuel) (children_for sc state_name) with
        | .error e => .error e
        | .ok inner =>
          let points := (children_for sc state_name).flatMap (fun child =>
            ((transitions_from sc child).enum).filterMap (fun p =>
              if (descendants_for sc child).contains p.2.target then
                some (pointName child p.1)
              else none))
          .ok (.cluster state_name active (state.kind = StateKind.compound) state.initial
                (!(transitions_to sc state_name).isEmpty ||
                  !(transitions_from sc state_name).isEmpty)
                inner points)

mutual

/-- Serialization of a structured node, mirroring the template formatting of
`visit_state` (src/sismic_viz.py lines 71-117). -/
def renderNode : Node → String
  | .cluster state_name active compound initial_state hasAnchor inner points =>
    let color := if active then "\"#3399ff\"" else "black"
    let style := if compound then " style=rounded" else " style=dashed"
    let initialStr := if compound then template_initial state_name initial_state else ""
    let initialStr :=
      if hasAnchor then initialStr ++ template_invisible state_name else initialStr
    let inner_nodes := String.intercalate "\n" (renderChildren inner)
    let pointLines := String.intercalate "\n" (points.map (fun p => "  " ++ p))
    let additional_points :=
      if pointLines ≠ "" then
        "\n" ++ "  node [shape=point margin=0 style=invis width=0. height=0.]" ++
          "\n" ++ pointLines
      else ""
    template_cluster state_name color style inner_nodes initialStr additional_points
  | .leafTable state_name active on_entry on_exit =>
    let bgcolor := if active then " bgcolor=\"#3399ff\"" else ""
    let on_entryStr :=
      if on_entry ≠ "" then "\n    <tr><td>entry / " ++ on_entry ++ "</td></tr>" else ""
    let on_exitStr :=
      if on_exit ≠ "" then "\n    <tr><td>exit / " ++ on_exit ++ "</td></tr>" else ""
    template_leaf_table_label state_name bgcolor on_entryStr on_exitStr
  | .leafSimple state_name active =>
    let color := if active then "\"#3399ff\"" else "black"
    let style := if active then " style=filled" else ""
    let label := "\"" ++ state_name ++ "\""
    template_leaf state_name label style color

/-- The `'\n'.join(indent(visit_state(...)) for inner in children)` step. -/
def renderChildren : List Node → List String
  | [] => []
  | n :: ns => indent (renderNode n) :: renderChildren ns

end

/-- Embedding of `visit_state` (src/sismic_viz.py line 67): the serialized
subtree rooted at `state_name`. -/
def visit_state (sc : Statechart) (configuration : List String) (fuel : Nat)
    (state_name : String) : Except VizError String :=
  (build_node sc configuration fuel state_name).map renderNode

/-- Embedding of `export_to_dot` (src/sismic_viz.py line 180). -/
def export_to_dot (sc : Statechart) (include_guards include_actions : Bool)
    (edge_fontsize : Nat) (configuration : List String) : Except VizError String := do
  let nodes ← visit_state sc configuration (sc.states.length + 1) sc.root
  let edges ← get_edges sc include_guards include_actions configuration
  pure (template_graph_doc edge_fontsize sc.name (indent nodes) (indent edges))

/-- The `additional_points` names declared directly inside a cluster node. -/
def nodePoints : Node → List String
  | .cluster _ _ _ _ _ _ points => points
  | _ => []

/-- The `hasAnchor` flag of a cluster node (whether `template_invisible` is
emitted for it). -/
def nodeHasAnchor : Node → Bool
  | .cluster _ _ _ _ hasAnchor _ _ => hasAnchor
  | _ => false

mutual

/-- All waypoint names declared inside any cluster of a node tree. -/
def allPoints : Node → List String
  | .cluster _ _ _ _ _ inner points => points ++ allPointsList inner
  | _ => []

def allPointsList : List Node → List String
  | [] => []
  | n :: ns => allPoints n ++ allPointsList ns

end

/-- Modelled from the spec: the label-composition rule in its own words
(event name if present, then the guard in square brackets if present and the
guard toggle is on, then the action prefixed by a slash if present and the
action toggle is on; absent parts omitted, present parts space-joined in that
fixed order, embedded quotes escaped).  To be compared with
`transition_label`, the embedding of the source. -/
def spec_label (include_guards include_actions : Bool) (t : Transition) : String :=
  String.intercalate " "
    ((if t.event ≠ "" then [t.event] else []) ++
     (if include_guards = true ∧ t.guard ≠ "" then
        ["[" ++ escapeQuotes t.guard ++ "]"] else []) ++
     (if include_actions = true ∧ t.action ≠ "" then
        ["/ " ++ escapeQuotes t.action] else []))

/-
The permissive evaluation context (src/sismic_viz.py lines 400-481).

The evaluator object is modelled by the attributes that
`disable_keyerror_in_actions` / `enable_keyerror_in_actions` read and write:
its `_execute_code` and `_evaluate_code` methods (tagged `original` for the
sismic implementation and `patched` for the monkey-patched closures) and the
optional backup attributes `old_execute_code` / `old_eval_code` (`none` when
`hasattr` is false).  The attributes `old_val_code` and `old_eal_code` read
and deleted by `enable_keyerror_in_actions` are never set anywhere, so
accessing them raises `AttributeError`.
-/

inductive ExecImpl where
  | original
  | patched
deriving DecidableEq, Repr

inductive EvalImpl where
  | original
  | patched
deriving DecidableEq, Repr

structure Evaluator where
  execute_code_attr : ExecImpl
  evaluate_code_attr : EvalImpl
  old_execute_code : Option ExecImpl
  old_eval_code : Option EvalImpl
deriving DecidableEq, Repr

/-- Embedding of `disable_keyerror_in_actions` (src/sismic_viz.py line 427):
each method is saved and replaced only when no backup attribute exists yet. -/
def disable_keyerror_in_actions (ev : Evaluator) : Evaluator :=
  let ev1 :=
    match ev.old_execute_code with
    | none => { ev with old_execute_code := some ev.execute_code_attr,
                        execute_code_attr := ExecImpl.patched }
    | some _ => ev
  match ev1.old_eval_code with
  | none => { ev1 with old_eval_code := some ev1.evaluate_code_attr,
                       evaluate_code_attr := EvalImpl.patched }
  | some _ => ev1

/-- Embedding of `enable_keyerror_in_actions` (src/sismic_viz.py line 474):
the `_execute_code` method is restored from `old_execute_code`, but the
second block reads `old_val_code` (and would delete `old_eal_code`),
attributes that were never set, so whenever `old_eval_code` exists the call
raises `AttributeError` with `_evaluate_code` left patched. -/
def enable_keyerror_in_actions (ev : Evaluator) : Except String Evaluator :=
  let ev1 :=
    match ev.old_execute_code with
    | some f => { ev with execute_code_attr := f, old_execute_code := none }
    | none => ev
  match ev1.old_eval_code with
  | some _ => .error "AttributeError: old_val_code"
  | none => .ok ev1

/-
A small fragment of Python values, expressions and statements: the part of
the dynamic semantics exercised by guard/action code through
`NoKeyErrorDict` and `CallMe`.  The `sentinel` value is the `CallMe`
instance: attribute access and calls on it return itself
(`CallMe.__getattribute__` / `CallMe.__call__`), and attribute assignment on
it succeeds without touching the evaluation context (default
`object.__setattr__` on the instance).  Attribute access or calls on the
other modelled base values are errors in both modes, and `>` is only defined
between ints, as in Python 3.
-/

inductive PyVal where
  | intV (n : Int)
  | strV (s : String)
  | boolV (b : Bool)
  | sentinel
deriving DecidableEq, Repr

abbrev PyCtx := List (String × PyVal)

def ctxGet (ctx : PyCtx) (n : String) : Option PyVal :=
  (ctx.find? (fun p => p.1 == n)).map Prod.snd

def ctxSet (ctx : PyCtx) (n : String) (v : PyVal) : PyCtx :=
  if (ctxGet ctx n).isSome then ctx.map (fun p => if p.1 == n then (n, v) else p)
  else ctx ++ [(n, v)]

inductive PyErr where
  | nameError (n : String)
  | attributeError
  | notCallable
  | typeError
deriving DecidableEq, Repr

inductive EvalMode where
  | strict
  | permissive
deriving DecidableEq, Repr

/-- Name resolution: the locals (the interpreter context, passed as `locals_`
to `NoKeyErrorDict`), then the exposed context (its `globals_`), then — the
`__getitem__` chain of `NoKeyErrorDict` (src/sismic_viz.py line 417) — the
`CallMe()` sentinel in permissive mode, while plain `exec` raises `NameError`
in strict mode. -/
def lookupName (mode : EvalMode) (globals_ locals_ : PyCtx) (n : String) :
    Except PyErr PyVal :=
  match ctxGet locals_ n with
  | some v => .ok v
  | none =>
    match ctxGet globals_ n with
    | some v => .ok v
    | none =>
      match mode with
      | .permissive => .ok .sentinel
      | .strict => .error (.nameError n)

inductive PyExpr where
  | lit (v : PyVal)
  | name (n : String)
  | attr (e : PyExpr) (a : String)
  | call (f : PyExpr) (args : List PyExpr)
  | gt (a b : PyExpr)

inductive PyStmt where
  | assignName (n : String) (e : PyExpr)
  | assignAttr (tgt : PyExpr) (a : String) (e : PyExpr)
  | exprStmt (e : PyExpr)

mutual

/-- Expression evaluation in the modelled Python fragment.  Evaluation
order follows CPython: function before arguments, left operand before
right. -/
def evalExpr (mode : EvalMode) (globals_ locals_ : PyCtx) : PyExpr → Except PyErr PyVal
  | .lit v => .ok v
  | .name n => lookupName mode globals_ locals_ n
  | .attr e _ => do
    let v ← evalExpr mode globals_ locals_ e
    match v with
    | .sentinel => .ok .sentinel
    | _ => .error .attributeError
  | .call f args => do
    let vf ← evalExpr mode globals_ locals_ f
    let _ ← evalArgs mode globals_ locals_ args
    match vf with
    | .sentinel => .ok .sentinel
    | _ => .error .notCallable
  | .gt a b => do
    let va ← evalExpr mode globals_ locals_ a
    let vb ← evalExpr mode globals_ locals_ b
    match va, vb with
    | .intV x, .intV y => .ok (.boolV (decide (y < x)))
    | _, _ => .error .typeError

def evalArgs (mode : EvalMode) (globals_ locals_ : PyCtx) :
    List PyExpr → Except PyErr (List PyVal)
  | [] => .ok []
  | e :: es => do
    let v ← evalExpr mode globals_ locals_ e
    let vs ← evalArgs mode globals_ locals_ es
    .ok (v :: vs)

end

/-- Statement execution: name assignment stores into the locals
(`NoKeyErrorDict.__setitem__` writes `locals_`, plain `exec` stores into its
locals mapping as well); the right-hand side is evaluated before the
assignment target, as in CPython. -/
def execStmt (mode : EvalMode) (globals_ locals_ : PyCtx) : PyStmt → Except PyErr PyCtx
  | .assignName n e => (evalExpr mode globals_ locals_ e).map (ctxSet locals_ n)
  | .assignAttr tgt _ e => do
    let _ ← evalExpr mode globals_ locals_ e
    let vt ← evalExpr mode globals_ locals_ tgt
    match vt with
    | .sentinel => .ok locals_
    | _ => .error .attributeError
  | .exprStmt e => (evalExpr mode globals_ locals_ e).map (fun _ => locals_)

def execStmts (mode : EvalMode) (globals_ : PyCtx) : PyCtx → List PyStmt → Except PyErr PyCtx
  | locals_, [] => .ok locals_
  | locals_, s :: ss => do
    let locals2 ← execStmt mode globals_ locals_ s
    execStmts mode globals_ locals2 ss

/-- A `CodeEvaluationError`: the underlying exception together with the code
whose execution or evaluation raised it (the message
`'"e" occurred while executing "code"'`). -/
inductive CodeErr where
  | execErr (cause : PyErr) (code : List PyStmt)
  | evalErr (cause : PyErr) (code : PyExpr)

/-- Embedding of action-code execution: with mode `permissive` this is
`new_execute_code` (src/sismic_viz.py line 435), which executes the code in a
`NoKeyErrorDict`; with mode `strict` it is the original evaluator method,
whose name lookup fails on undefined names.  Either way an exception is
wrapped in a `CodeEvaluationError` naming the executed code. -/
def execute_code (mode : EvalMode) (exposed ctx : PyCtx) (code : List PyStmt) :
    Except CodeErr PyCtx :=
  match execStmts mode exposed ctx code with
  | .ok ctx2 => .ok ctx2
  | .error e => .error (.execErr e code)

/-- Embedding of strict guard evaluation (the original `_evaluate_code`):
exceptions are wrapped in a `CodeEvaluationError` naming the expression. -/
def evaluate_code_strict (exposed ctx : PyCtx) (code : PyExpr) : Except CodeErr PyVal :=
  match evalExpr .strict exposed ctx code with
  | .ok v => .ok v
  | .error e => .error (.evalErr e code)

/-- Embedding of `new_eval_code` (src/sismic_viz.py line 465): strict
evaluation with any `CodeEvaluationError` degraded to `False`. -/
def evaluate_code_permissive (exposed ctx : PyCtx) (code : PyExpr) : Except CodeErr PyVal :=
  match evaluate_code_strict exposed ctx code with
  | .error _ => .ok (.boolV false)
  | .ok v => .ok v

/-- Expressions built from an undefined name `u` by attribute accesses and
calls whose arguments evaluate successfully in permissive mode — the shape
`someUnsetObject.method(x).field` of the spec. -/
inductive SentChain (exposed ctx : PyCtx) (u : String) : PyExpr → Prop where
  | base : SentChain exposed ctx u (.name u)
  | attr (e : PyExpr) (a : String) :
      SentChain exposed ctx u e → SentChain exposed ctx u (.attr e a)
  | call (f : PyExpr) (args : List PyExpr) :
      SentChain exposed ctx u f →
      (∀ x ∈ args, ∃ v, evalExpr .permissive exposed ctx x = .ok v) →
      SentChain exposed ctx u (.call f args)

/-
Concrete statecharts used as witnesses and counterexamples.
-/

/-- A small statechart: compound root with a compound child `A` (containing
leaf `B`), and an orthogonal child `Z` (containing leaves `P`, `Q`).
Transitions: `A → B` (a strict-descendant target), `Z → A` (between two
composite states), `root → B` (a strict-descendant target from the root). -/
def scA : Statechart :=
  { name := "demo", root := "root",
    states := [
      ⟨"root", .compound, ["A", "Z"], "A", "", ""⟩,
      ⟨"A", .compound, ["B"], "B", "", ""⟩,
      ⟨"B", .leaf, [], "", "", ""⟩,
      ⟨"Z", .orthogonal, ["P", "Q"], "", "", ""⟩,
      ⟨"P", .leaf, [], "", "enter_p", ""⟩,
      ⟨"Q", .leaf, [], "", "", ""⟩],
    transitions := [
      ⟨"A", "B", "go", "x>0", "y=1"⟩,
      ⟨"Z", "A", "e1", "", ""⟩,
      ⟨"root", "B", "", "", ""⟩] }

/-- The transition `A → B` of `scA`. -/
def tAB : Transition := ⟨"A", "B", "go", "x>0", "y=1"⟩

/-- A hierarchy that is not a tree: `S` is a child of both `A` and `B`. -/
def sc_dag : Statechart :=
  { name := "dag", root := "root",
    states := [
      ⟨"root", .compound, ["A", "B"], "A", "", ""⟩,
      ⟨"A", .compound, ["S"], "S", "", ""⟩,
      ⟨"B", .compound, ["S"], "S", "", ""⟩,
      ⟨"S", .leaf, [], "", "", ""⟩],
    transitions := [] }

/-- A statechart with a transition to an unknown state name. -/
def sc_ghost : Statechart :=
  { name := "ghost", root := "root",
    states := [
      ⟨"root", .compound, ["A"], "A", "", ""⟩,
      ⟨"A", .leaf, [], "", "", ""⟩],
    transitions := [⟨"A", "ghost", "", "", ""⟩] }

/-- A fresh evaluator in strict mode: both methods original, no backups. -/
def ev0 : Evaluator := ⟨.original, .original, none, none⟩

/-- An interpreter context with two defined variables. -/
def ctx0 : PyCtx := [("y", .intV 1), ("x", .intV 5)]

/-- The expression `someUnset.method(x)` over the undefined name `someUnset`. -/
def chainE : PyExpr := .call (.attr (.name "someUnset") "method") [.name "x"]

/-- The guard `someUnset > 0` over the undefined name `someUnset`. -/
def guardE : PyExpr := .gt (.name "someUnset") (.lit (.intV 0))

/-- The action statement `someUnset.method(x).field = 1`. -/
def actionStmt : PyStmt := .assignAttr chainE "field" (.lit (.intV 1))

/-
Theorems.  First a few reduction and traversal lemmas.
-/

theorem except_bind_ok (a : α) (f : α → Except ε β) :
    (Except.ok a : Except ε α) >>= f = f a := rfl

theorem except_bind_error (e : ε) (f : α → Except ε β) :
    (Except.error e : Except ε α) >>= f = .error e := rfl

theorem except_pure (a : α) : (pure a : Except ε α) = .ok a := rfl

theorem exists_error_of_no_ok {x : Except ε α} (h : ∀ v, ¬ x = .ok v) :
    ∃ e, x = .error e := by
  cases x with
  | ok v => exact absurd rfl (h v)
  | error e => exact ⟨e, rfl⟩

theorem mapME_cons_ok {f : α → Except ε β} {x : α} {xs : List α} {r : List β}
    (h : mapME f (x :: xs) = .ok r) :
    ∃ y ys, f x = .ok y ∧ mapME f xs = .ok ys ∧ r = y :: ys := by
  cases hfx : f x with
  | error e => rw [mapME, hfx, except_bind_error] at h; simp at h
  | ok y =>
    cases hm : mapME f xs with
    | error e => rw [mapME, hfx, except_bind_ok, hm, except_bind_error] at h; simp at h
    | ok ys =>
      rw [mapME, hfx, except_bind_ok, hm, except_bind_ok] at h
      simp at h
      exact ⟨y, ys, rfl, rfl, h.symm⟩

theorem mapME_ok_forall {f : α → Except ε β} :
    ∀ {l : List α} {r : List β}, mapME f l = .ok r → ∀ a ∈ l, ∃ b, f a = .ok b := by
  intro l
  induction l with
  | nil => intro r _ a ha; simp at ha
  | cons x xs ih =>
    intro r h a ha
    obtain ⟨y, ys, hfx, hm, _⟩ := mapME_cons_ok h
    rcases List.mem_cons.mp ha with rfl | ha2
    · exact ⟨y, hfx⟩
    · exact ih hm a ha2

theorem mapME_ok_mem {f : α → Except ε β} :
    ∀ {l : List α} {r : List β}, mapME f l = .ok r → ∀ b ∈ r, ∃ a ∈ l, f a = .ok b := by
  intro l
  induction l with
  | nil => intro r h b hb; rw [mapME] at h; simp at h; subst h; simp at hb
  | cons x xs ih =>
    intro r h b hb
    obtain ⟨y, ys, hfx, hm, rfl⟩ := mapME_cons_ok h
    rcases List.mem_cons.mp hb with rfl | hb2
    · exact ⟨x, List.mem_cons_self x xs, hfx⟩
    · obtain ⟨a, ha, hfa⟩ := ih hm b hb2
      exact ⟨a, List.mem_cons_of_mem x ha, hfa⟩

theorem mapME_ok_length {f : α → Except ε β} :
    ∀ {l : List α} {r : List β}, mapME f l = .ok r → r.length = l.length := by
  intro l
  induction l with
  | nil => intro r h; rw [mapME] at h; simp at h; subst h; rfl
  | cons x xs ih =>
    intro r h
    obtain ⟨y, ys, _, hm, rfl⟩ := mapME_cons_ok h
    simp [ih hm]

theorem mapME_ok_get {f : α → Except ε β} :
    ∀ {l : List α} {r : List β}, mapME f l = .ok r →
      ∀ i (h1 : i < l.length) (h2 : i < r.length),
        f (l.get ⟨i, h1⟩) = .ok (r.get ⟨i, h2⟩) := by
  intro l
  induction l with
  | nil => intro r _ i h1 _; simp at h1
  | cons x xs ih =>
    intro r h i h1 h2
    obtain ⟨y, ys, hfx, hm, rfl⟩ := mapME_cons_ok h
    cases i with
    | zero => simpa using hfx
    | succ j =>
      have h1' : j < xs.length := by simpa using h1
      have h2' : j < ys.length := by simpa using h2
      simpa using ih hm j h1' h2'

/-- Inversion of `build_node` at a composite state: the result is a cluster
node whose fields are the active flag, the compound test, the declared
initial child, the anchor test, the elementwise rendering of the declared
children in declared order, and the waypoint list. -/
theorem build_node_composite (sc : Statechart) (configuration : List String) (fuel : Nat)
    (s : String) (st : SCState) (nd : Node)
    (hst : state_for sc s = some st)
    (hk : st.kind ≠ .leaf)
    (hb : build_node sc configuration (fuel+1) s = .ok nd) :
    ∃ inner points,
      nd = Node.cluster s (configuration.contains s) (decide (st.kind = StateKind.compound))
            st.initial
            (!(transitions_to sc s).isEmpty || !(transitions_from sc s).isEmpty) inner points ∧
      mapME (build_node sc configuration fuel) st.children = .ok inner ∧
      inner.length = st.children.length ∧
      (∀ i (h1 : i < st.children.length) (h2 : i < inner.length),
        build_node sc configuration fuel (st.children.get ⟨i, h1⟩) = .ok (inner.get ⟨i, h2⟩)) ∧
      (st.kind = StateKind.orthogonal → decide (st.kind = StateKind.compound) = false) := by
  have hch : children_for sc s = st.children := by simp [children_for, hst]
  rw [build_node] at hb
  simp only [hst, hch] at hb
  rw [if_neg hk] at hb
  rcases hm : mapME (build_node sc configuration fuel) st.children with e | inner
  · rw [hm] at hb; simp at hb
  · rw [hm] at hb
    simp only [Except.ok.injEq] at hb
    subst hb
    exact ⟨inner, _, rfl, rfl, mapME_ok_length hm, mapME_ok_get hm,
      fun ho => by simp [ho]⟩

/-- The anchor test of `visit_state` is equivalent to the existence of a
transition touching the state. -/
theorem anchor_test_iff (sc : Statechart) (s : String) :
    (!(transitions_to sc s).isEmpty || !(transitions_from sc s).isEmpty) = true ↔
      ∃ t ∈ sc.transitions, t.source = s ∨ t.target = s := by
  simp only [transitions_to, transitions_from, Bool.or_eq_true, Bool.not_eq_true',
    List.isEmpty_eq_false, ne_eq, List.filter_eq_nil_iff, not_forall, beq_iff_eq]
  constructor
  · rintro (⟨t, ht, h⟩ | ⟨t, ht, h⟩)
    · exact ⟨t, ht, .inr (by simpa using h)⟩
    · exact ⟨t, ht, .inl (by simpa using h)⟩
  · rintro ⟨t, ht, h | h⟩
    · exact .inr ⟨t, ht, by simpa using h⟩
    · exact .inl ⟨t, ht, by simpa using h⟩

/-- C9: the render operation is deterministic: for any fixed (model,
configuration, options), two invocations of `export_to_dot` produce
byte-identical graph documents — the embedded renderer is a pure function of
exactly these arguments and reads no other state. -/
theorem C9_determinism (sc : Statechart) (include_guards include_actions : Bool)
    (edge_fontsize : Nat) (configuration : List String) :
    export_to_dot sc include_guards include_actions edge_fontsize configuration =
      export_to_dot sc include_guards include_actions edge_fontsize configuration := rfl

/-- C3: the edge label is composed of the event name (if present), the guard
in square brackets (if present and the guard toggle is on), and the action
prefixed by a slash (if present and the action toggle is on), absent parts
omitted and present parts space-joined in that fixed order; in particular
event `go`, guard `x>0`, action `y=1` with both toggles on yield
`go [x>0] / y=1`, with the guard toggle off `go / y=1`, and with no event,
guard or action the label is empty. -/
theorem C3_label_composition :
    (∀ (include_guards include_actions : Bool) (t : Transition),
      transition_label include_guards include_actions t =
        spec_label include_guards include_actions t) ∧
    transition_label true true ⟨"A", "B", "go", "x>0", "y=1"⟩ = "go [x>0] / y=1" ∧
    transition_label false true ⟨"A", "B", "go", "x>0", "y=1"⟩ = "go / y=1" ∧
    transition_label true true ⟨"A", "B", "", "", ""⟩ = "" := by
  refine ⟨?_, rfl, rfl, rfl⟩
  intro ig ia t
  simp only [transition_label, spec_label]
  split_ifs <;> simp

/-- C7: the claim (toggling is idempotent and switching back to strict fully
restores pre-permissive behavior) is the intent, but the restore path of the
code is broken: `enable_keyerror_in_actions` reads `old_val_code` and deletes
`old_eal_code` — typos for the `old_eval_code` attribute actually saved — so
after permissive mode has been enabled, switching back raises
`AttributeError` and leaves `_evaluate_code` patched.  Enabling twice is
indeed a no-op, and enabling strict mode on a fresh evaluator is harmless. -/
theorem C7_restore_is_broken :
    disable_keyerror_in_actions (disable_keyerror_in_actions ev0) =
      disable_keyerror_in_actions ev0 ∧
    enable_keyerror_in_actions (disable_keyerror_in_actions ev0) =
      .error "AttributeError: old_val_code" ∧
    (disable_keyerror_in_actions ev0).evaluate_code_attr = .patched ∧
    enable_keyerror_in_actions ev0 = .ok ev0 := ⟨rfl, rfl, rfl, rfl⟩

/-- C1: for a transition whose target is a strict descendant of its source
(the `descendants_for` test of the renderer), the renderer emits exactly two
edge segments sharing the single waypoint `pointName source ind`, named from
the source and the transition ordinal: the first runs from the source anchor
to the waypoint, undirected (`dir=none`) and unlabeled, clipped only at the
source boundary; the second runs from the waypoint to the resolved target
anchor, directed, carrying the full composed label, clipped at the target
boundary. -/
theorem C1_same_subtree_split (sc : Statechart) (include_guards include_actions : Bool)
    (configuration : List String) (state_name : String) (ind : Nat) (t : Transition)
    (vs bs vt bt : String)
    (hs : get_valid_nodes sc t.source = .ok (vs, bs))
    (ht : get_valid_nodes sc t.target = .ok (vt, bt))
    (_hsrc : t.source = state_name)
    (hdesc : (descendants_for sc state_name).contains t.target = true) :
    edges_for_transition sc include_guards include_actions configuration state_name ind t =
      .ok [⟨vs, pointName state_name ind, bs, pointName state_name ind, "", " dir=none",
            if t.event ≠ "" ∧ configuration.contains state_name then
              " color=\"#3399ff\"" else ""⟩,
           ⟨pointName state_name ind, vt, pointName state_name ind, bt,
            transition_label include_guards include_actions t, "",
            if t.event ≠ "" ∧ configuration.contains state_name then
              " color=\"#3399ff\"" else ""⟩] := by
  have hdesc2 : t.target ∈ descendants_for sc state_name := by simpa using hdesc
  simp [edges_for_transition, hs, ht, hdesc2, except_bind_ok]

/-- Witness for C1 on `scA`: the transition `A → B` targets a strict
descendant of `A` and is split into two segments joined at `point_A_0`. -/
theorem C1_witness :
    get_valid_nodes scA "A" = .ok ("invisible_A", "cluster_A") ∧
    get_valid_nodes scA "B" = .ok ("B", "B") ∧
    (descendants_for scA "A").contains "B" = true ∧
    edges_for_transition scA true true [] "A" 0 tAB =
      .ok [⟨"invisible_A", "point_A_0", "cluster_A", "point_A_0", "", " dir=none", ""⟩,
           ⟨"point_A_0", "B", "point_A_0", "B", "go [x>0] / y=1", "", ""⟩] :=
  ⟨rfl, rfl, rfl, C1_same_subtree_split scA true true [] "A" 0 tAB
    "invisible_A" "cluster_A" "B" "B" rfl rfl rfl rfl⟩

/-- C2 counterexample: in `scA` the transition `A → B` targets a strict
descendant of its source `A`; its two segments share the waypoint
`point_A_0`, yet no waypoint at all is declared inside `A`'s own cluster —
the waypoint is declared in the cluster of `A`'s parent `root` instead, so
the claim that the waypoint is declared inside the source's cluster is
false. -/
theorem C2_counterexample :
    edges_for_transition scA true true [] "A" 0 tAB =
      .ok [⟨"invisible_A", "point_A_0", "cluster_A", "point_A_0", "", " dir=none", ""⟩,
           ⟨"point_A_0", "B", "point_A_0", "B", "go [x>0] / y=1", "", ""⟩] ∧
    (build_node scA [] 7 "A").map allPoints = .ok [] ∧
    (build_node scA [] 7 "root").map nodePoints = .ok ["point_A_0"] := ⟨rfl, rfl, rfl⟩

/-- C4 counterexample: in `sc_dag` the parent/child relation is not a tree —
`S` is a declared child of both `A` and `B` — yet the render operation does
not fail: it returns a document (duplicating the shared subtree), so the
claim that rendering fails with a model-integrity error whenever the
hierarchy is not a tree is false. -/
theorem C4_counterexample :
    state_for sc_dag "A" = some ⟨"A", .compound, ["S"], "S", "", ""⟩ ∧
    state_for sc_dag "B" = some ⟨"B", .compound, ["S"], "S", "", ""⟩ ∧
    (∃ doc, export_to_dot sc_dag true true 14 [] = .ok doc) :=
  ⟨rfl, rfl, ⟨_, rfl⟩⟩

/-- C4 amended: the renderer performs no tree-ness validation of its own (a
hierarchy with multiple parents renders without error), but it does fail —
with the accessor's unknown-state lookup error — whenever a transition from
a known source state references an unknown target state name, so it never
silently emits a document for such a transition. -/
theorem C4_unknown_state_error (sc : Statechart) (include_guards include_actions : Bool)
    (edge_fontsize : Nat) (configuration : List String) (t : Transition) (s : SCState)
    (hs : s ∈ sc.states) (hname : s.name = t.source) (ht : t ∈ sc.transitions)
    (hu : state_for sc t.target = none) :
    ∃ e, export_to_dot sc include_guards include_actions edge_fontsize configuration =
      .error e := by
  -- the transition is enumerated while visiting its source state
  have htf : t ∈ transitions_from sc s.name := by
    rw [transitions_from, List.mem_filter]
    exact ⟨ht, by simp [hname]⟩
  obtain ⟨ind, hind⟩ : ∃ ind : Nat, (transitions_from sc s.name)[ind]? = some t :=
    List.mem_iff_getElem?.mp htf
  have henum : (ind, t) ∈ (transitions_from sc s.name).enum :=
    List.mem_enum_iff_getElem?.mpr hind
  -- processing this transition raises the unknown-state lookup error
  have hsome : ∃ st, state_for sc t.source = some st := by
    have : (sc.states.find? (fun st => st.name == t.source)).isSome := by
      rw [List.find?_isSome]
      exact ⟨s, hs, by simp [hname]⟩
    exact Option.isSome_iff_exists.mp this
  obtain ⟨st, hst⟩ := hsome
  have hedge : edges_for_transition sc include_guards include_actions configuration
      s.name ind t = .error (.unknownState t.target) := by
    have hgt : get_valid_nodes sc t.target = .error (.unknownState t.target) := by
      rw [get_valid_nodes, hu]
    have hgs2 : ∃ p, get_valid_nodes sc t.source = .ok p := by
      simp only [get_valid_nodes, hst]
      split
      · exact ⟨_, rfl⟩
      · exact ⟨_, rfl⟩
    obtain ⟨⟨vs, bs⟩, hgs⟩ := hgs2
    rw [edges_for_transition]
    simp [hgs, hgt, except_bind_ok, except_bind_error]
  -- hence the per-state traversal fails, hence the edge pass fails
  have hinner : ∀ r, ¬ mapME (fun (p : Nat × Transition) =>
      edges_for_transition sc include_guards include_actions configuration s.name p.1 p.2)
      (transitions_from sc s.name).enum = .ok r := by
    intro r hok
    obtain ⟨b, hb⟩ := mapME_ok_forall hok (ind, t) henum
    rw [hedge] at hb
    simp at hb
  have houter : ∀ r, ¬ mapME (fun (s2 : SCState) => do
      let perTransition ← mapME
        (fun (p : Nat × Transition) =>
          edges_for_transition sc include_guards include_actions configuration s2.name p.1 p.2)
        (transitions_from sc s2.name).enum
      pure perTransition.flatten) sc.states = .ok r := by
    intro r hok
    obtain ⟨b, hb⟩ := mapME_ok_forall hok s hs
    rcases hm : mapME (fun (p : Nat × Transition) =>
        edges_for_transition sc include_guards include_actions configuration s.name p.1 p.2)
        (transitions_from sc s.name).enum with e | r2
    · rw [hm, except_bind_error] at hb; simp at hb
    · exact hinner r2 hm
  obtain ⟨e1, he1⟩ : ∃ e1, get_edges_list sc include_guards include_actions configuration =
      .error e1 := by
    apply exists_error_of_no_ok
    intro v hok
    rw [get_edges_list] at hok
    rcases hm : mapME (fun (s2 : SCState) => do
        let perTransition ← mapME
          (fun (p : Nat × Transition) =>
            edges_for_transition sc include_guards include_actions configuration s2.name p.1 p.2)
          (transitions_from sc s2.name).enum
        pure perTransition.flatten) sc.states with e | r
    · rw [hm, except_bind_error] at hok; simp at hok
    · exact houter r hm
  have hedges : get_edges sc include_guards include_actions configuration = .error e1 := by
    rw [get_edges, he1]; rfl
  rw [export_to_dot]
  rcases hv : visit_state sc configuration (sc.states.length + 1) sc.root with e | ns
  · exact ⟨e, by rw [except_bind_error]⟩
  · refine ⟨e1, ?_⟩
    rw [except_bind_ok, hedges, except_bind_error]

/-- Witness for the amended C4 on `sc_ghost`: the transition `A → ghost`
references the unknown state name `ghost` and rendering fails. -/
theorem C4_witness :
    (⟨"A", .leaf, [], "", "", ""⟩ : SCState) ∈ sc_ghost.states ∧
    (⟨"A", "ghost", "", "", ""⟩ : Transition) ∈ sc_ghost.transitions ∧
    state_for sc_ghost "ghost" = none ∧
    (∃ e, export_to_dot sc_ghost true true 14 [] = .error e) :=
  ⟨by decide, by decide, rfl,
    C4_unknown_state_error sc_ghost true true 14 [] ⟨"A", "ghost", "", "", ""⟩
      ⟨"A", .leaf, [], "", "", ""⟩ (by decide) rfl (by decide) rfl⟩

/-- C6: for a composite state the emitted cluster contains exactly one
rendered entry per declared child, in declared order (the `inner` list is the
elementwise rendering of the children list); a Compound state's cluster
carries the compound flag — for which `renderNode` emits exactly one
initial-marker point with an edge targeting the declared initial child
(`template_initial s st.initial`) — while an Orthogonal state's cluster
carries a false compound flag, for which `renderNode` emits the dashed style
and no initial marker. -/
theorem C6_cluster_structure (sc : Statechart) (configuration : List String) (fuel : Nat)
    (s : String) (st : SCState) (nd : Node)
    (hst : state_for sc s = some st)
    (hk : st.kind ≠ .leaf)
    (hb : build_node sc configuration (fuel+1) s = .ok nd) :
    ∃ inner points,
      nd = Node.cluster s (configuration.contains s) (decide (st.kind = StateKind.compound))
            st.initial
            (!(transitions_to sc s).isEmpty || !(transitions_from sc s).isEmpty) inner points ∧
      mapME (build_node sc configuration fuel) st.children = .ok inner ∧
      inner.length = st.children.length ∧
      (∀ i (h1 : i < st.children.length) (h2 : i < inner.length),
        build_node sc configuration fuel (st.children.get ⟨i, h1⟩) = .ok (inner.get ⟨i, h2⟩)) ∧
      (st.kind = StateKind.orthogonal → decide (st.kind = StateKind.compound) = false) :=
  build_node_composite sc configuration fuel s st nd hst hk hb

/-- Witness for C6 on `scA`: the compound root (children `A`, `Z` in order,
initial child `A`) and the orthogonal state `Z` (children `P`, `Q`, no
compound flag). -/
theorem C6_witness :
    state_for scA "root" = some ⟨"root", .compound, ["A", "Z"], "A", "", ""⟩ ∧
    state_for scA "Z" = some ⟨"Z", .orthogonal, ["P", "Q"], "", "", ""⟩ ∧
    (∃ nd, build_node scA ["A"] 7 "root" = .ok nd ∧
      ∃ inner points,
        nd = Node.cluster "root" (List.contains ["A"] "root") true "A"
              (!(transitions_to scA "root").isEmpty || !(transitions_from scA "root").isEmpty)
              inner points ∧
        mapME (build_node scA ["A"] 6) ["A", "Z"] = .ok inner ∧
        inner.length = 2 ∧
        (∀ i (h1 : i < (["A", "Z"] : List String).length) (h2 : i < inner.length),
          build_node scA ["A"] 6 ((["A", "Z"] : List String).get ⟨i, h1⟩) =
            .ok (inner.get ⟨i, h2⟩))) ∧
    (∃ nd, build_node scA ["A"] 7 "Z" = .ok nd ∧
      ∃ inner points,
        nd = Node.cluster "Z" (List.contains ["A"] "Z") false ""
              (!(transitions_to scA "Z").isEmpty || !(transitions_from scA "Z").isEmpty)
              inner points ∧
        mapME (build_node scA ["A"] 6) ["P", "Q"] = .ok inner) := by
  refine ⟨rfl, rfl, ⟨_, rfl, ?_⟩, ⟨_, rfl, ?_⟩⟩
  · obtain ⟨inner, points, h1, h2, h3, h4, _⟩ :=
      C6_cluster_structure scA ["A"] 6 "root" ⟨"root", .compound, ["A", "Z"], "A", "", ""⟩ _
        rfl (by decide) rfl
    exact ⟨inner, points, h1, h2, h3, h4⟩
  · obtain ⟨inner, points, h1, h2, _, _, _⟩ :=
      C6_cluster_structure scA ["A"] 6 "Z" ⟨"Z", .orthogonal, ["P", "Q"], "", "", ""⟩ _
        rfl (by decide) rfl
    exact ⟨inner, points, h1, h2⟩

/-- C5: for a transition whose source is a composite state, the first
emitted segment starts at that state's invisible anchor node and its
boundary-clip `ltail` names the state's cluster identifier (never an inner
node name); for a transition whose target is a composite state, the last
emitted segment ends at that state's invisible anchor node and its `lhead`
names the state's cluster identifier; and a composite state's cluster
carries the invisible anchor node exactly when some transition in the
statechart has that state as source or target. -/
theorem C5_anchor_correctness (sc : Statechart) :
    (∀ (include_guards include_actions : Bool) (configuration : List String)
       (state_name : String) (ind : Nat) (t : Transition) (st : SCState) (es : List EdgeArgs),
       state_for sc t.source = some st → st.kind ≠ .leaf →
       edges_for_transition sc include_guards include_actions configuration state_name ind t =
         .ok es →
       ∃ e rest, es = e :: rest ∧ e.source = "invisible_" ++ t.source ∧
         e.ltail = "cluster_" ++ t.source) ∧
    (∀ (include_guards include_actions : Bool) (configuration : List String)
       (state_name : String) (ind : Nat) (t : Transition) (st : SCState) (es : List EdgeArgs),
       state_for sc t.target = some st → st.kind ≠ .leaf →
       edges_for_transition sc include_guards include_actions configuration state_name ind t =
         .ok es →
       ∃ e, es.getLast? = some e ∧ e.target = "invisible_" ++ t.target ∧
         e.lhead = "cluster_" ++ t.target) ∧
    (∀ (configuration : List String) (fuel : Nat) (s : String) (st : SCState) (nd : Node),
       state_for sc s = some st → st.kind ≠ .leaf →
       build_node sc configuration (fuel+1) s = .ok nd →
       (nodeHasAnchor nd = true ↔ ∃ t ∈ sc.transitions, t.source = s ∨ t.target = s)) := by
  refine ⟨?_, ?_, ?_⟩
  · intro ig ia cfg state_name ind t st es hst hk hok
    have hgs : get_valid_nodes sc t.source =
        .ok ("invisible_" ++ t.source, "cluster_" ++ t.source) := by
      simp only [get_valid_nodes, hst]
      rw [if_neg hk]
    rw [edges_for_transition] at hok
    rcases hgt : get_valid_nodes sc t.target with e | p
    · rw [hgs, except_bind_ok] at hok
      simp only [hgt, except_bind_error] at hok
      simp at hok
    · obtain ⟨vt, bt⟩ := p
      rw [hgs, except_bind_ok] at hok
      simp only [hgt, except_bind_ok] at hok
      by_cases hd : (descendants_for sc state_name).contains t.target = true
      · simp only [hd, if_true] at hok
        simp only [Except.ok.injEq] at hok
        subst hok
        exact ⟨_, _, rfl, rfl, rfl⟩
      · simp only [hd, Bool.false_eq_true, if_false, Except.ok.injEq] at hok
        subst hok
        exact ⟨_, _, rfl, rfl, rfl⟩
  · intro ig ia cfg state_name ind t st es hst hk hok
    have hgt : get_valid_nodes sc t.target =
        .ok ("invisible_" ++ t.target, "cluster_" ++ t.target) := by
      simp only [get_valid_nodes, hst]
      rw [if_neg hk]
    rw [edges_for_transition] at hok
    rcases hgs : get_valid_nodes sc t.source with e | p
    · simp only [hgs, except_bind_error] at hok
      simp at hok
    · obtain ⟨vs, bs⟩ := p
      simp only [hgs, except_bind_ok] at hok
      rw [hgt, except_bind_ok] at hok
      by_cases hd : (descendants_for sc state_name).contains t.target = true
      · simp only [hd, if_true] at hok
        simp only [Except.ok.injEq] at hok
        subst hok
        exact ⟨_, rfl, rfl, rfl⟩
      · simp only [hd, Bool.false_eq_true, if_false, Except.ok.injEq] at hok
        subst hok
        exact ⟨_, rfl, rfl, rfl⟩
  · intro cfg fuel s st nd hst hk hb
    obtain ⟨inner, points, hnd, -, -, -, -⟩ :=
      build_node_composite sc cfg fuel s st nd hst hk hb
    subst hnd
    exact anchor_test_iff sc s

/-- Witness for C5 on `scA`: the transition `Z → A` joins two composite
states, its single segment runs between their invisible anchors with
`ltail=cluster_Z` and `lhead=cluster_A`; and `A`'s cluster carries the
anchor because of that transition. -/
theorem C5_witness :
    state_for scA "Z" = some ⟨"Z", .orthogonal, ["P", "Q"], "", "", ""⟩ ∧
    state_for scA "A" = some ⟨"A", .compound, ["B"], "B", "", ""⟩ ∧
    edges_for_transition scA true true [] "Z" 0 ⟨"Z", "A", "e1", "", ""⟩ =
      .ok [⟨"invisible_Z", "invisible_A", "cluster_Z", "cluster_A", "e1", "", ""⟩] ∧
    (∃ e rest,
      [(⟨"invisible_Z", "invisible_A", "cluster_Z", "cluster_A", "e1", "", ""⟩ : EdgeArgs)] =
        e :: rest ∧ e.source = "invisible_" ++ "Z" ∧ e.ltail = "cluster_" ++ "Z") ∧
    (∃ e, ([⟨"invisible_Z", "invisible_A", "cluster_Z", "cluster_A", "e1", "", ""⟩] :
        List EdgeArgs).getLast? = some e ∧
      e.target = "invisible_" ++ "A" ∧ e.lhead = "cluster_" ++ "A") ∧
    (∃ nd, build_node scA [] 7 "A" = .ok nd ∧
      (nodeHasAnchor nd = true ↔
        ∃ t ∈ scA.transitions, t.source = "A" ∨ t.target = "A")) := by
  refine ⟨rfl, rfl, rfl, ?_, ?_, ⟨_, rfl, ?_⟩⟩
  · exact (C5_anchor_correctness scA).1 true true [] "Z" 0 ⟨"Z", "A", "e1", "", ""⟩
      ⟨"Z", .orthogonal, ["P", "Q"], "", "", ""⟩ _ rfl (by decide) rfl
  · exact (C5_anchor_correctness scA).2.1 true true [] "Z" 0 ⟨"Z", "A", "e1", "", ""⟩
      ⟨"A", .compound, ["B"], "B", "", ""⟩ _ rfl (by decide) rfl
  · exact (C5_anchor_correctness scA).2.2 [] 6 "A" ⟨"A", .compound, ["B"], "B", "", ""⟩ _
      rfl (by decide) rfl

theorem evalArgs_ok_of_each (exposed ctx : PyCtx) (args : List PyExpr)
    (h : ∀ x ∈ args, ∃ v, evalExpr .permissive exposed ctx x = .ok v) :
    ∃ vs, evalArgs .permissive exposed ctx args = .ok vs := by
  induction args with
  | nil => exact ⟨[], rfl⟩
  | cons e es ih =>
    obtain ⟨v, hv⟩ := h e (List.mem_cons_self e es)
    obtain ⟨vs, hvs⟩ := ih (fun x hx => h x (List.mem_cons_of_mem e hx))
    exact ⟨v :: vs, by rw [evalArgs, hv, except_bind_ok, hvs, except_bind_ok]⟩

theorem sentChain_permissive (exposed ctx : PyCtx) (u : String)
    (hu1 : ctxGet ctx u = none) (hu2 : ctxGet exposed u = none) :
    ∀ e, SentChain exposed ctx u e →
      evalExpr .permissive exposed ctx e = .ok .sentinel := by
  intro e hch
  induction hch with
  | base => simp [evalExpr, lookupName, hu1, hu2]
  | attr e2 a hch2 ih => simp [evalExpr, ih, except_bind_ok]
  | call f args hch2 hargs ih =>
    obtain ⟨vs, hvs⟩ := evalArgs_ok_of_each exposed ctx args hargs
    simp [evalExpr, ih, hvs, except_bind_ok]

theorem sentChain_strict (exposed ctx : PyCtx) (u : String)
    (hu1 : ctxGet ctx u = none) (hu2 : ctxGet exposed u = none) :
    ∀ e, SentChain exposed ctx u e →
      evalExpr .strict exposed ctx e = .error (.nameError u) := by
  intro e hch
  induction hch with
  | base => simp [evalExpr, lookupName, hu1, hu2]
  | attr e2 a hch2 ih => simp [evalExpr, ih, except_bind_error]
  | call f args hch2 hargs ih => simp [evalExpr, ih, except_bind_error]

/-- C8: in permissive mode the name lookup of an undefined name resolves to
the sentinel instead of raising, evaluation of a sentinel chain over the
undefined name yields the sentinel, and the action statement assigning
through the chain executes without raising (and leaves the context — in
particular every defined variable — unchanged); the same action in strict
mode raises an explicit evaluation error naming both the undefined name and
the failing code; and a guard whose strict evaluation raises yields `false`
in permissive mode. -/
theorem C8_permissive_evaluation (exposed ctx : PyCtx) (u : String) (e : PyExpr) (a : String)
    (rhs : PyVal) (g : PyExpr) (gerr : CodeErr)
    (hu1 : ctxGet ctx u = none) (hu2 : ctxGet exposed u = none)
    (hch : SentChain exposed ctx u e)
    (hg : evaluate_code_strict exposed ctx g = .error gerr) :
    lookupName .permissive exposed ctx u = .ok .sentinel ∧
    evalExpr .permissive exposed ctx e = .ok .sentinel ∧
    evalExpr .strict exposed ctx e = .error (.nameError u) ∧
    execute_code .permissive exposed ctx [.assignAttr e a (.lit rhs)] = .ok ctx ∧
    execute_code .strict exposed ctx [.assignAttr e a (.lit rhs)] =
      .error (.execErr (.nameError u) [.assignAttr e a (.lit rhs)]) ∧
    evaluate_code_permissive exposed ctx g = .ok (.boolV false) := by
  have hperm := sentChain_permissive exposed ctx u hu1 hu2 e hch
  have hstrict := sentChain_strict exposed ctx u hu1 hu2 e hch
  have hstmtp : execStmt .permissive exposed ctx (.assignAttr e a (.lit rhs)) = .ok ctx := by
    rw [execStmt]
    simp [evalExpr, hperm, except_bind_ok]
  have hstmts : execStmt .strict exposed ctx (.assignAttr e a (.lit rhs)) =
      .error (.nameError u) := by
    rw [execStmt]
    simp [evalExpr, hstrict, except_bind_ok, except_bind_error]
  refine ⟨by simp [lookupName, hu1, hu2], hperm, hstrict, ?_, ?_, ?_⟩
  · rw [execute_code, execStmts, hstmtp, except_bind_ok, execStmts]
  · rw [execute_code, execStmts, hstmts, except_bind_error]
  · rw [evaluate_code_permissive, hg]

/-- Witness for C8: context `y=1, x=5`, undefined name `someUnset`, the
action `someUnset.method(x).field = 1` and the guard `someUnset > 0`. -/
theorem C8_witness :
    ctxGet ctx0 "someUnset" = none ∧
    ctxGet ([] : PyCtx) "someUnset" = none ∧
    SentChain [] ctx0 "someUnset" chainE ∧
    evaluate_code_strict [] ctx0 guardE =
      .error (.evalErr (.nameError "someUnset") guardE) ∧
    evalExpr .permissive [] ctx0 chainE = .ok .sentinel ∧
    execute_code .permissive [] ctx0 [actionStmt] = .ok ctx0 ∧
    execute_code .strict [] ctx0 [actionStmt] =
      .error (.execErr (.nameError "someUnset") [actionStmt]) ∧
    evaluate_code_permissive [] ctx0 guardE = .ok (.boolV false) := by
  have hch : SentChain [] ctx0 "someUnset" chainE :=
    .call _ _ (.attr _ _ .base) (by
      intro x hx
      rcases List.mem_singleton.mp hx with rfl
      exact ⟨.intV 5, rfl⟩)
  obtain ⟨-, h2, -, h4, h5, h6⟩ :=
    C8_permissive_evaluation [] ctx0 "someUnset" chainE "field" (.intV 1) guardE
      (.evalErr (.nameError "someUnset") guardE) rfl rfl hch rfl
  exact ⟨rfl, rfl, hch, rfl, h2, h4, h5, h6⟩

theorem digitChar_ne_underscore : ∀ d, digitChar d ≠ '_' := by
  intro d
  match d with
  | 0 => decide
  | 1 => decide
  | 2 => decide
  | 3 => decide
  | 4 => decide
  | 5 => decide
  | 6 => decide
  | 7 => decide
  | 8 => decide
  | 9 => decide
  | n+10 =>
    show ('?' : Char) ≠ '_'
    decide

theorem natToStrAux_no_underscore :
    ∀ fuel n (acc : List Char), '_' ∉ acc → '_' ∉ natToStrAux fuel n acc := by
  intro fuel
  induction fuel with
  | zero => intro n acc h; simpa [natToStrAux] using h
  | succ f ih =>
    intro n acc h
    rw [natToStrAux]
    split
    · intro hmem
      rcases List.mem_cons.mp hmem with heq | hmem2
      · exact digitChar_ne_underscore n heq.symm
      · exact h hmem2
    · apply ih
      intro hmem
      rcases List.mem_cons.mp hmem with heq | hmem2
      · exact digitChar_ne_underscore _ heq.symm
      · exact h hmem2

theorem natToStr_no_underscore (n : Nat) : '_' ∉ (natToStr n).data := by
  have h := natToStrAux_no_underscore (n+1) n [] (by simp)
  simpa [natToStr] using h

/-- Splitting a character list at its final underscore is unambiguous when
the suffixes contain no further underscore. -/
theorem append_underscore_inj :
    ∀ (a b t1 t2 : List Char), '_' ∉ t1 → '_' ∉ t2 →
      a ++ '_' :: t1 = b ++ '_' :: t2 → a = b ∧ t1 = t2 := by
  intro a
  induction a with
  | nil =>
    intro b t1 t2 h1 _ heq
    cases b with
    | nil => simpa using heq
    | cons c bs =>
      simp only [List.nil_append, List.cons_append, List.cons.injEq] at heq
      exfalso
      apply h1
      rw [heq.2]
      exact List.mem_append.mpr (.inr (List.mem_cons_self _ _))
  | cons c as ih =>
    intro b t1 t2 h1 h2 heq
    cases b with
    | nil =>
      simp only [List.cons_append, List.nil_append, List.cons.injEq] at heq
      exfalso
      apply h2
      rw [← heq.2]
      exact List.mem_append.mpr (.inr (List.mem_cons_self _ _))
    | cons d bs =>
      simp only [List.cons_append, List.cons.injEq] at heq
      obtain ⟨hab, ht12⟩ := ih bs t1 t2 h1 h2 heq.2
      exact ⟨by rw [heq.1, hab], ht12⟩

theorem pointName_data (c : String) (i : Nat) :
    (pointName c i).data =
      ('p' :: 'o' :: 'i' :: 'n' :: 't' :: '_' :: c.data) ++ '_' :: (natToStr i).data := by
  simp [pointName, String.data_append, List.append_assoc]

/-- Two waypoint names agree only if they come from the same state name. -/
theorem pointName_inj_left {c r : String} {i j : Nat}
    (h : pointName c i = pointName r j) : c = r := by
  have hd : (pointName c i).data = (pointName r j).data := by rw [h]
  rw [pointName_data, pointName_data] at hd
  have hd2 : ('p' :: 'o' :: 'i' :: 'n' :: 't' :: '_' :: c.data) =
      ('p' :: 'o' :: 'i' :: 'n' :: 't' :: '_' :: r.data) ∧
      (natToStr i).data = (natToStr j).data :=
    append_underscore_inj _ _ _ _ (natToStr_no_underscore i) (natToStr_no_underscore j) hd
  have hcr : c.data = r.data := by simpa using hd2.1
  exact String.ext hcr

theorem mem_allPointsList {x : String} :
    ∀ {l : List Node}, x ∈ allPointsList l ↔ ∃ nd ∈ l, x ∈ allPoints nd := by
  intro l
  induction l with
  | nil => simp [allPointsList]
  | cons n ns ih => simp [allPointsList, ih, List.mem_append, or_and_right, exists_or]

/-- The waypoint of a split transition out of `c` is declared among the
`additional_points` of the cluster of `c`'s parent. -/
theorem waypoint_in_parent (sc : Statechart) (configuration : List String)
    (fuel : Nat) (p : String) (st : SCState) (c : String) (ind : Nat) (t : Transition)
    (nd : Node)
    (hst : state_for sc p = some st) (hk : st.kind ≠ .leaf)
    (hc : c ∈ st.children)
    (htr : (ind, t) ∈ (transitions_from sc c).enum)
    (hdesc : (descendants_for sc c).contains t.target = true)
    (hb : build_node sc configuration (fuel+1) p = .ok nd) :
    pointName c ind ∈ nodePoints nd := by
  have hch : children_for sc p = st.children := by simp [children_for, hst]
  rw [build_node] at hb
  simp only [hst, hch] at hb
  rw [if_neg hk] at hb
  rcases hm : mapME (build_node sc configuration fuel) st.children with e | inner
  · rw [hm] at hb; simp at hb
  · rw [hm] at hb
    simp only [Except.ok.injEq] at hb
    subst hb
    rw [nodePoints]
    apply List.mem_flatMap.mpr
    refine ⟨c, hc, ?_⟩
    apply List.mem_filterMap.mpr
    refine ⟨(ind, t), htr, ?_⟩
    rw [if_pos hdesc]

/-- In a hierarchy where the root is not any state's child, a waypoint named
from the root is never declared inside any cluster of the built tree. -/
theorem root_waypoint_not_declared (sc : Statechart) (configuration : List String)
    (ind : Nat) (hroot : ∀ st ∈ sc.states, sc.root ∉ st.children) :
    ∀ fuel s nd, build_node sc configuration fuel s = .ok nd →
      pointName sc.root ind ∉ allPoints nd := by
  intro fuel
  induction fuel with
  | zero => intro s nd hb; rw [build_node] at hb; simp at hb
  | succ n ih =>
    intro s nd hb
    rw [build_node] at hb
    rcases hst : state_for sc s with _ | st
    · rw [hst] at hb; simp at hb
    · rw [hst] at hb
      simp only at hb
      by_cases hk : st.kind = .leaf
      · rw [if_pos hk] at hb
        split at hb <;>
          (simp only [Except.ok.injEq] at hb; subst hb; simp [allPoints])
      · rw [if_neg hk] at hb
        rcases hm : mapME (build_node sc configuration n) (children_for sc s) with e | inner
        · rw [hm] at hb; simp at hb
        · rw [hm] at hb
          simp only [Except.ok.injEq] at hb
          subst hb
          rw [allPoints]
          intro hmem
          rcases List.mem_append.mp hmem with hp | hi
          · obtain ⟨child, hchild, hfm⟩ := List.mem_flatMap.mp hp
            obtain ⟨⟨i, t⟩, -, hif⟩ := List.mem_filterMap.mp hfm
            have heq : pointName child i = pointName sc.root ind := by
              by_cases hcond : (descendants_for sc child).contains t.target = true
              · rw [if_pos hcond] at hif
                simpa using hif
              · rw [if_neg hcond] at hif
                simp at hif
            have hcr : child = sc.root := pointName_inj_left heq
            have hmemSt : st ∈ sc.states := List.mem_of_find?_eq_some hst
            have hchild2 : child ∈ st.children := by
              rw [children_for, hst] at hchild
              simpa using hchild
            rw [hcr] at hchild2
            exact hroot st hmemSt hchild2
          · obtain ⟨nd2, hnd2, hx⟩ := mem_allPointsList.mp hi
            obtain ⟨child, -, hbc⟩ := mapME_ok_mem hm nd2 hnd2
            exact ih child nd2 hbc hx

/-- C2 amended: the invisible waypoint shared by the two edge segments of a
same-subtree transition is declared not inside the source's own cluster but
inside the cluster of the source's parent state: when the parent `p`
declares the source `c` among its children, the waypoint
`pointName c ind` appears among the `additional_points` of the cluster built
for `p`. -/
theorem C2_waypoint_in_parent_cluster (sc : Statechart) (configuration : List String)
    (fuel : Nat) (p : String) (st : SCState) (c : String) (ind : Nat) (t : Transition)
    (nd : Node)
    (hst : state_for sc p = some st) (hk : st.kind ≠ .leaf)
    (hc : c ∈ st.children)
    (htr : (ind, t) ∈ (transitions_from sc c).enum)
    (hdesc : (descendants_for sc c).contains t.target = true)
    (hb : build_node sc configuration (fuel+1) p = .ok nd) :
    pointName c ind ∈ nodePoints nd :=
  waypoint_in_parent sc configuration fuel p st c ind t nd hst hk hc htr hdesc hb

/-- Witness for the amended C2 on `scA`: `point_A_0` is declared among the
points of the cluster of `root`, the parent of the source `A`. -/
theorem C2_witness :
    state_for scA "root" = some ⟨"root", .compound, ["A", "Z"], "A", "", ""⟩ ∧
    "A" ∈ (["A", "Z"] : List String) ∧
    (0, tAB) ∈ (transitions_from scA "A").enum ∧
    (descendants_for scA "A").contains "B" = true ∧
    (∃ nd, build_node scA [] 7 "root" = .ok nd ∧ pointName "A" 0 ∈ nodePoints nd) :=
  ⟨rfl, by decide, by decide, rfl,
    ⟨_, rfl, C2_waypoint_in_parent_cluster scA [] 6 "root"
      ⟨"root", .compound, ["A", "Z"], "A", "", ""⟩ "A" 0 tAB _
      rfl (by decide) (by decide) (by decide) rfl rfl⟩⟩

/-- C10: for a same-subtree transition the waypoint referenced by the two
edge segments (`pointName source ind`, the name both segments use) is
declared in the cluster of the source's parent state when the source has a
parent; and when the source is the root state — which is no state's child —
that waypoint is not declared inside any cluster of the document. -/
theorem C10_waypoint_location (sc : Statechart) (configuration : List String) :
    (∀ (fuel : Nat) (p : String) (st : SCState) (c : String) (ind : Nat) (t : Transition)
       (nd : Node),
       state_for sc p = some st → st.kind ≠ .leaf → c ∈ st.children →
       (ind, t) ∈ (transitions_from sc c).enum →
       (descendants_for sc c).contains t.target = true →
       build_node sc configuration (fuel+1) p = .ok nd →
       pointName c ind ∈ nodePoints nd) ∧
    (∀ (ind : Nat) (fuel : Nat) (s : String) (nd : Node),
       (∀ st ∈ sc.states, sc.root ∉ st.children) →
       build_node sc configuration fuel s = .ok nd →
       pointName sc.root ind ∉ allPoints nd) :=
  ⟨fun fuel p st c ind t nd h1 h2 h3 h4 h5 h6 =>
      waypoint_in_parent sc configuration fuel p st c ind t nd h1 h2 h3 h4 h5 h6,
    fun ind fuel s nd h1 h2 =>
      root_waypoint_not_declared sc configuration ind h1 fuel s nd h2⟩

/-- Witness for C10 on `scA`: `point_A_0` (source `A`, parent `root`) is
declared in `root`'s cluster, while `point_root_0` (the waypoint of the
split transition `root → B`) is declared in no cluster of the document. -/
theorem C10_witness :
    (∀ st ∈ scA.states, scA.root ∉ st.children) ∧
    state_for scA "root" = some ⟨"root", .compound, ["A", "Z"], "A", "", ""⟩ ∧
    (0, tAB) ∈ (transitions_from scA "A").enum ∧
    (descendants_for scA "A").contains "B" = true ∧
    (∃ nd, build_node scA [] 7 "root" = .ok nd ∧
      pointName "A" 0 ∈ nodePoints nd ∧ pointName scA.root 0 ∉ allPoints nd) :=
  ⟨by decide, rfl, by decide, rfl,
    ⟨_, rfl,
      (C10_waypoint_location scA []).1 6 "root"
        ⟨"root", .compound, ["A", "Z"], "A", "", ""⟩ "A" 0 tAB _
        rfl (by decide) (by decide) (by decide) rfl rfl,
      (C10_waypoint_location scA []).2 0 7 "root" _ (by decide) rfl⟩⟩

end SismicViz
